import Mathlib

/-!
Verification of the clip-bounds and finiteness-validation subsystem
(`Clip` / `ClipGeometry`) of the imaging-model crate.

The subsystem consumes external collaborator types (an affine transform, a
rectangle / rounded-rectangle / path geometry library, and a stroke-style
descriptor).  Those collaborators are not part of the repository source; they
are modelled here from the specification of how the clip subsystem consumes
them.  The clip subsystem itself (`ClipGeometry`, `Clip`, and the stroke
helper functions) is translated directly from `src/imaging_model/src/clip.rs`.

Numbers: the collaborators operate on IEEE-754 doubles.  We model a double as
either NaN, one of the two infinities, negative zero, or an exact finite
value (`F64.num q`, with `num 0` standing for positive zero).  Finite
arithmetic is exact rational arithmetic: rounding and overflow-to-infinity of
genuine IEEE doubles are not modelled.  The special-value propagation rules
(NaN, infinities, signed zeros) follow IEEE-754, which is what the claims
under verification are about.
-/

/-- Addition of rationals through `mkRat`, which the kernel can evaluate on
concrete values (the primitive rational operations are compiled externally
and do not reduce).  Proven equal to ordinary rational addition below. -/
def ratAdd (p q : ℚ) : ℚ := mkRat (p.num * q.den + q.num * p.den) (p.den * q.den)

/-- Multiplication of rationals through `mkRat`; proven equal to ordinary
rational multiplication below. -/
def ratMul (p q : ℚ) : ℚ := mkRat (p.num * q.num) (p.den * q.den)

/-- Modelled from the spec: an IEEE-754 double as consumed by the clip
subsystem.  `num 0` is positive zero; `negZero` is negative zero.  NaN is
collapsed to a single value (payload bits never influence the operations the
spec describes). -/
inductive F64 where
  | nan : F64
  | pinf : F64
  | ninf : F64
  | negZero : F64
  | num : ℚ → F64
deriving DecidableEq, Repr

namespace F64

/-- Modelled from the spec: `f64::is_finite` — true for ordinary values and
signed zeros, false for NaN and the infinities. -/
def is_finite : F64 → Bool
  | .negZero => true
  | .num _ => true
  | _ => false

/-- Modelled from the spec: `f64::is_nan`. -/
def is_nan : F64 → Bool
  | .nan => true
  | _ => false

/-- Modelled from the spec: IEEE-754 `==` on doubles.  NaN compares unequal
to everything (itself included); `-0.0 == +0.0`. -/
def ieee_eq : F64 → F64 → Bool
  | .nan, _ => false
  | _, .nan => false
  | .pinf, .pinf => true
  | .ninf, .ninf => true
  | .negZero, .negZero => true
  | .negZero, .num q => decide (q = 0)
  | .num q, .negZero => decide (q = 0)
  | .num p, .num q => decide (p = q)
  | _, _ => false

/-- Modelled from the spec: `f64::abs`.  `|-0.0| = +0.0`, `|NaN| = NaN`. -/
def abs : F64 → F64
  | .nan => .nan
  | .pinf => .pinf
  | .ninf => .pinf
  | .negZero => .num 0
  | .num q => .num |q|

/-- Modelled from the spec: IEEE-754 negation. -/
def neg : F64 → F64
  | .nan => .nan
  | .pinf => .ninf
  | .ninf => .pinf
  | .negZero => .num 0
  | .num q => if q = 0 then .negZero else .num (-q)

/-- Modelled from the spec: IEEE-754 `<` (false whenever an operand is
NaN). -/
def lt : F64 → F64 → Bool
  | .nan, _ => false
  | _, .nan => false
  | .ninf, .ninf => false
  | .ninf, _ => true
  | _, .ninf => false
  | .pinf, _ => false
  | _, .pinf => true
  | .negZero, .negZero => false
  | .negZero, .num q => 0 < q
  | .num q, .negZero => q < 0
  | .num p, .num q => p < q

/-- Modelled from the spec: `f64::max` — NaN-ignoring maximum (if one
operand is NaN the other is returned). -/
def max (x y : F64) : F64 :=
  if x.is_nan then y else if y.is_nan then x else if x.lt y then y else x

/-- Modelled from the spec: `f64::min` — NaN-ignoring minimum. -/
def min (x y : F64) : F64 :=
  if x.is_nan then y else if y.is_nan then x else if y.lt x then y else x

/-- Modelled from the spec: IEEE-754 addition.  NaN propagates, opposite
infinities give NaN, exact cancellation of finite values gives positive
zero (round-to-nearest), `-0.0 + -0.0 = -0.0`. -/
def add : F64 → F64 → F64
  | .nan, _ => .nan
  | _, .nan => .nan
  | .pinf, .ninf => .nan
  | .ninf, .pinf => .nan
  | .pinf, _ => .pinf
  | _, .pinf => .pinf
  | .ninf, _ => .ninf
  | _, .ninf => .ninf
  | .negZero, .negZero => .negZero
  | .negZero, .num q => .num q
  | .num q, .negZero => .num q
  | .num p, .num q => .num (ratAdd p q)

/-- Modelled from the spec: IEEE-754 subtraction, as addition of the
negation. -/
def sub (x y : F64) : F64 := x.add y.neg

/-- Modelled from the spec: IEEE-754 multiplication.  NaN propagates,
infinity times zero is NaN, signs of zeros follow the sign rule (overflow of
finite products is not modelled). -/
def mul : F64 → F64 → F64
  | .nan, _ => .nan
  | _, .nan => .nan
  | .pinf, .pinf => .pinf
  | .pinf, .ninf => .ninf
  | .ninf, .pinf => .ninf
  | .ninf, .ninf => .pinf
  | .pinf, .negZero => .nan
  | .negZero, .pinf => .nan
  | .ninf, .negZero => .nan
  | .negZero, .ninf => .nan
  | .pinf, .num q => if q = 0 then .nan else if q < 0 then .ninf else .pinf
  | .num q, .pinf => if q = 0 then .nan else if q < 0 then .ninf else .pinf
  | .ninf, .num q => if q = 0 then .nan else if q < 0 then .pinf else .ninf
  | .num q, .ninf => if q = 0 then .nan else if q < 0 then .pinf else .ninf
  | .negZero, .negZero => .num 0
  | .negZero, .num q => if q < 0 then .num 0 else .negZero
  | .num q, .negZero => if q < 0 then .num 0 else .negZero
  | .num p, .num q =>
      if p = 0 ∨ q = 0 then
        if (p < 0 ∧ 0 ≤ q) ∨ (q < 0 ∧ 0 ≤ p) then .negZero else .num 0
      else .num (ratMul p q)

end F64

/-- Modelled from the spec: a 2-D point with double coordinates (collaborator
`kurbo::Point`). -/
structure Point where
  x : F64
  y : F64
deriving DecidableEq, Repr

/-- Modelled from the spec: an axis-aligned rectangle with double
coordinates (collaborator `kurbo::Rect`); plain storage of the four
coordinates, no normalisation on construction. -/
structure Rect where
  x0 : F64
  y0 : F64
  x1 : F64
  y1 : F64
deriving DecidableEq, Repr

namespace Rect

/-- Modelled from the spec: `Rect::is_finite` — all four coordinates
finite. -/
def is_finite (r : Rect) : Bool :=
  r.x0.is_finite && r.y0.is_finite && r.x1.is_finite && r.y1.is_finite

/-- Modelled from the spec: `Rect::is_nan` — any coordinate NaN. -/
def is_nan (r : Rect) : Bool :=
  r.x0.is_nan || r.y0.is_nan || r.x1.is_nan || r.y1.is_nan

/-- Modelled from the spec: `Rect::from_points` — the rectangle spanned by
two points, with coordinates sorted by the NaN-ignoring min/max. -/
def from_points (p q : Point) : Rect :=
  ⟨p.x.min q.x, p.y.min q.y, p.x.max q.x, p.y.max q.y⟩

/-- Modelled from the spec: `Rect::union` — smallest rectangle enclosing
both. -/
def union (r s : Rect) : Rect :=
  ⟨r.x0.min s.x0, r.y0.min s.y0, r.x1.max s.x1, r.y1.max s.y1⟩

/-- Modelled from the spec: `Rect::union_pt` — enlarge the rectangle to
contain a point. -/
def union_pt (r : Rect) (p : Point) : Rect :=
  ⟨r.x0.min p.x, r.y0.min p.y, r.x1.max p.x, r.y1.max p.y⟩

/-- Modelled from the spec: `Rect::inflate` — outset each side, i.e.
`Rect::new(x0 - w, y0 - h, x1 + w, y1 + h)`. -/
def inflate (r : Rect) (w h : F64) : Rect :=
  ⟨r.x0.sub w, r.y0.sub h, r.x1.add w, r.y1.add h⟩

end Rect

/-- Modelled from the spec: a 2×3 affine transform, six scalars in the
collaborator order `[a, b, c, d, e, f]` with
`x' = a*x + c*y + e`, `y' = b*x + d*y + f`. -/
structure Affine where
  c0 : F64
  c1 : F64
  c2 : F64
  c3 : F64
  c4 : F64
  c5 : F64
deriving DecidableEq, Repr

namespace Affine

/-- The six coefficients as a list, for field-enumeration arguments. -/
def coeffs (t : Affine) : List F64 := [t.c0, t.c1, t.c2, t.c3, t.c4, t.c5]

/-- Modelled from the spec: `Affine::is_finite` — all six coefficients
finite. -/
def is_finite (t : Affine) : Bool :=
  t.c0.is_finite && t.c1.is_finite && t.c2.is_finite &&
  t.c3.is_finite && t.c4.is_finite && t.c5.is_finite

/-- Modelled from the spec: `Affine::is_nan` — any coefficient NaN. -/
def is_nan (t : Affine) : Bool :=
  t.c0.is_nan || t.c1.is_nan || t.c2.is_nan ||
  t.c3.is_nan || t.c4.is_nan || t.c5.is_nan

/-- Modelled from the spec: the identity transform. -/
def identity : Affine :=
  ⟨.num 1, .num 0, .num 0, .num 1, .num 0, .num 0⟩

/-- Modelled from the spec: `Affine::translate`. -/
def translate (x y : F64) : Affine :=
  ⟨.num 1, .num 0, .num 0, .num 1, x, y⟩

/-- Modelled from the spec: applying the transform to a point:
`(a*x + c*y + e, b*x + d*y + f)`, left-associated. -/
def apply_point (t : Affine) (p : Point) : Point :=
  ⟨((t.c0.mul p.x).add (t.c2.mul p.y)).add t.c4,
   ((t.c1.mul p.x).add (t.c3.mul p.y)).add t.c5⟩

/-- Modelled from the spec: `Affine::transform_rect_bbox` — transform all
four corners and return the axis-aligned bounding box of the four
transformed points. -/
def transform_rect_bbox (t : Affine) (r : Rect) : Rect :=
  let p00 := t.apply_point ⟨r.x0, r.y0⟩
  let p01 := t.apply_point ⟨r.x0, r.y1⟩
  let p10 := t.apply_point ⟨r.x1, r.y0⟩
  let p11 := t.apply_point ⟨r.x1, r.y1⟩
  (Rect.from_points p00 p01).union (Rect.from_points p10 p11)

end Affine

/-- Modelled from the spec: per-corner radii of a rounded rectangle
(collaborator `kurbo::RoundedRectRadii`). -/
structure RoundedRectRadii where
  top_left : F64
  top_right : F64
  bottom_right : F64
  bottom_left : F64
deriving DecidableEq, Repr

namespace RoundedRectRadii

/-- Modelled from the spec: all four radii finite. -/
def is_finite (r : RoundedRectRadii) : Bool :=
  r.top_left.is_finite && r.top_right.is_finite &&
  r.bottom_right.is_finite && r.bottom_left.is_finite

/-- Modelled from the spec: any radius NaN. -/
def is_nan (r : RoundedRectRadii) : Bool :=
  r.top_left.is_nan || r.top_right.is_nan ||
  r.bottom_right.is_nan || r.bottom_left.is_nan

/-- The four radii as a list, for field-enumeration arguments. -/
def coords (r : RoundedRectRadii) : List F64 :=
  [r.top_left, r.top_right, r.bottom_right, r.bottom_left]

end RoundedRectRadii

/-- Modelled from the spec: an axis-aligned rounded rectangle — an outer
rectangle plus per-corner radii (collaborator `kurbo::RoundedRect`). -/
structure RoundedRect where
  rect : Rect
  radii : RoundedRectRadii
deriving DecidableEq, Repr

namespace RoundedRect

/-- Modelled from the spec: rectangle and radii all finite. -/
def is_finite (rr : RoundedRect) : Bool :=
  rr.rect.is_finite && rr.radii.is_finite

/-- Modelled from the spec: any field NaN. -/
def is_nan (rr : RoundedRect) : Bool :=
  rr.rect.is_nan || rr.radii.is_nan

/-- Modelled from the spec: the bounding box of a rounded rectangle is its
outer rectangle (radii never shrink nor grow the bbox); coordinates are
normalised by NaN-ignoring min/max as the collaborator does. -/
def bounding_box (rr : RoundedRect) : Rect :=
  ⟨rr.rect.x0.min rr.rect.x1, rr.rect.y0.min rr.rect.y1,
   rr.rect.x0.max rr.rect.x1, rr.rect.y0.max rr.rect.y1⟩

end RoundedRect

/-- Modelled from the spec: one element of a general path — move / line /
quadratic / cubic segment or explicit subpath closure (collaborator
`kurbo::PathEl`). -/
inductive PathEl where
  | move_to : Point → PathEl
  | line_to : Point → PathEl
  | quad_to : Point → Point → PathEl
  | curve_to : Point → Point → Point → PathEl
  | close_path : PathEl
deriving DecidableEq, Repr

namespace PathEl

/-- The control points carried by a path element. -/
def points : PathEl → List Point
  | .move_to p => [p]
  | .line_to p => [p]
  | .quad_to p1 p2 => [p1, p2]
  | .curve_to p1 p2 p3 => [p1, p2, p3]
  | .close_path => []

/-- Modelled from the spec: every coordinate of the element is finite. -/
def is_finite (el : PathEl) : Bool :=
  el.points.all fun p => p.x.is_finite && p.y.is_finite

/-- Modelled from the spec: some coordinate of the element is NaN. -/
def is_nan (el : PathEl) : Bool :=
  el.points.any fun p => p.x.is_nan || p.y.is_nan

end PathEl

/-- Modelled from the spec: a general path is an ordered sequence of path
elements (collaborator `kurbo::BezPath`). -/
abbrev BezPath := List PathEl

namespace BezPath

/-- Modelled from the spec: every coordinate of every element is finite. -/
def is_finite (p : BezPath) : Bool := p.all PathEl.is_finite

/-- Modelled from the spec: some coordinate of some element is NaN. -/
def is_nan (p : BezPath) : Bool := p.any PathEl.is_nan

/-- Modelled from the spec: the bounding box of a path.  The spec asks for
tight curve bounds (curve extrema, not control-polygon bounds); tight cubic
extrema are irrational, so this model uses the control-point bounding box.
No claim verified here depends on the tightness of path bounds — only on the
finiteness filter applied to the result afterwards.  The empty path has the
zero rectangle as its bounding box. -/
def bounding_box (p : BezPath) : Rect :=
  match p.foldr (fun el acc => el.points ++ acc) [] with
  | [] => ⟨.num 0, .num 0, .num 0, .num 0⟩
  | q :: qs => qs.foldl (fun r pt => r.union_pt pt) ⟨q.x, q.y, q.x, q.y⟩

end BezPath

/-- Modelled from the spec: the connection style between stroke segments. -/
inductive Join where
  | bevel : Join
  | miter : Join
  | round : Join
deriving DecidableEq, Repr

/-- Modelled from the spec: the shape drawn at the ends of a stroke. -/
inductive Cap where
  | butt : Cap
  | square : Cap
  | round : Cap
deriving DecidableEq, Repr

/-- Modelled from the spec: the stroke-style descriptor consumed by the clip
subsystem (collaborator `kurbo::Stroke`): width, join style, miter limit,
start/end cap styles, dash pattern (ordered lengths), dash offset, and a
scale flag. -/
structure Stroke where
  width : F64
  join : Join
  miter_limit : F64
  start_cap : Cap
  end_cap : Cap
  dash_pattern : List F64
  dash_offset : F64
  scale : Bool
deriving DecidableEq, Repr

namespace Stroke

/-- The numeric fields of a stroke as a list, for field-enumeration
arguments: width, miter limit, dash offset, then the dash lengths. -/
def coords (s : Stroke) : List F64 :=
  s.width :: s.miter_limit :: s.dash_offset :: s.dash_pattern

end Stroke

/-- Fill rule determining the interior of a shape, from
`src/src/style.rs`: non-zero or even-odd. -/
inductive Fill where
  | nonZero : Fill
  | evenOdd : Fill
deriving DecidableEq, Repr

/-- Geometry payload used by `Clip` operations, from
`src/imaging_model/src/clip.rs`: axis-aligned rectangle, axis-aligned
rounded rectangle, or general path. -/
inductive ClipGeometry where
  | rect : Rect → ClipGeometry
  | roundedRect : RoundedRect → ClipGeometry
  | path : BezPath → ClipGeometry
deriving DecidableEq, Repr

/-- Modelled from the spec: conversion of a plain rectangle to a path
(collaborator `Rect::to_path`): the four corners as a closed polygon; no
curves are involved, so the tolerance is unused. -/
def rect_to_path (r : Rect) : BezPath :=
  [.move_to ⟨r.x0, r.y0⟩, .line_to ⟨r.x1, r.y0⟩,
   .line_to ⟨r.x1, r.y1⟩, .line_to ⟨r.x0, r.y1⟩, .close_path]

/-- Modelled from the spec: conversion of a rounded rectangle to a path
(collaborator `RoundedRect::to_path`) flattens the corner arcs to within the
given tolerance.  The spec does not pin the flattening down and no claim
verified here depends on this case, so this model emits the radius-zero
outline (the outer-rectangle polygon), ignoring the tolerance. -/
def rounded_rect_to_path (rr : RoundedRect) (_tolerance : F64) : BezPath :=
  rect_to_path rr.rect

namespace ClipGeometry

/-- `ClipGeometry::is_finite` from `src/imaging_model/src/clip.rs`. -/
def is_finite : ClipGeometry → Bool
  | .rect r => r.is_finite
  | .roundedRect rr => rr.is_finite
  | .path p => p.is_finite

/-- `ClipGeometry::is_nan` from `src/imaging_model/src/clip.rs`. -/
def is_nan : ClipGeometry → Bool
  | .rect r => r.is_nan
  | .roundedRect rr => rr.is_nan
  | .path p => p.is_nan

/-- `ClipGeometry::to_path` from `src/imaging_model/src/clip.rs`: rectangles
and rounded rectangles are converted through the collaborator, a path is
returned unchanged (the cloned value equals the original). -/
def to_path : ClipGeometry → F64 → BezPath
  | .rect r, _tolerance => rect_to_path r
  | .roundedRect rr, tolerance => rounded_rect_to_path rr tolerance
  | .path p, _tolerance => p

/-- `ClipGeometry::bounds` from `src/imaging_model/src/clip.rs`: the local
bounding box of the active variant, or `none` when it is non-finite. -/
def bounds (g : ClipGeometry) : Option Rect :=
  let b := match g with
    | .rect r => r
    | .roundedRect rr => rr.bounding_box
    | .path p => p.bounding_box
  if b.is_finite then some b else none

end ClipGeometry

/-- A clip operation, from `src/imaging_model/src/clip.rs`: clip to the fill
region of a shape, or to the filled outline of a stroked shape. -/
inductive Clip where
  | fill : Affine → ClipGeometry → Fill → Clip
  | stroke : Affine → ClipGeometry → Stroke → Clip
deriving DecidableEq, Repr

/-- `stroke_is_finite` from `src/imaging_model/src/clip.rs`: width, miter
limit, dash offset and every dash-pattern entry are finite. -/
def stroke_is_finite (s : Stroke) : Bool :=
  s.width.is_finite && s.miter_limit.is_finite && s.dash_offset.is_finite &&
  s.dash_pattern.all fun dash => dash.is_finite

/-- `stroke_is_nan` from `src/imaging_model/src/clip.rs`: width, miter
limit, dash offset or some dash-pattern entry is NaN. -/
def stroke_is_nan (s : Stroke) : Bool :=
  s.width.is_nan || s.miter_limit.is_nan || s.dash_offset.is_nan ||
  s.dash_pattern.any fun dash => dash.is_nan

/-- The conservative stroke outset of `stroke_bounds` in
`src/imaging_model/src/clip.rs`:
`0.5 * stroke.width.abs() * stroke.miter_limit.abs().max(1.0)`. -/
def stroke_outset (s : Stroke) : F64 :=
  ((F64.num (mkRat 1 2)).mul s.width.abs).mul (s.miter_limit.abs.max (.num 1))

/-- `stroke_bounds` from `src/imaging_model/src/clip.rs`: `none` for a
non-finite stroke, otherwise the bounds inflated by the conservative outset,
filtered for finiteness. -/
def stroke_bounds (bounds : Rect) (s : Stroke) : Option Rect :=
  if !stroke_is_finite s then none
  else
    let expanded := bounds.inflate (stroke_outset s) (stroke_outset s)
    if expanded.is_finite then some expanded else none

namespace Clip

/-- `Clip::bounds` from `src/imaging_model/src/clip.rs`: shape bounds,
stroke expansion for the stroke variant, transform application, and a final
finiteness filter. -/
def bounds : Clip → Option Rect
  | .fill t sh _fill_rule =>
      (sh.bounds.map fun b => t.transform_rect_bbox b).filter
        fun b => b.is_finite
  | .stroke t sh st =>
      ((sh.bounds.bind fun b => stroke_bounds b st).map
        fun b => t.transform_rect_bbox b).filter
        fun b => b.is_finite

/-- `Clip::is_finite` from `src/imaging_model/src/clip.rs`. -/
def is_finite : Clip → Bool
  | .fill t sh _fill_rule => t.is_finite && sh.is_finite
  | .stroke t sh st => t.is_finite && sh.is_finite && stroke_is_finite st

/-- `Clip::is_nan` from `src/imaging_model/src/clip.rs`. -/
def is_nan : Clip → Bool
  | .fill t sh _fill_rule => t.is_nan || sh.is_nan
  | .stroke t sh st => t.is_nan || sh.is_nan || stroke_is_nan st

/-- The transform carried by either clip variant. -/
def transform : Clip → Affine
  | .fill t _ _ => t
  | .stroke t _ _ => t

end Clip

/-- The two coordinates of a point as a list, for field-enumeration
arguments. -/
def Point.coords (p : Point) : List F64 := [p.x, p.y]

/-- The four coordinates of a rectangle as a list, for field-enumeration
arguments. -/
def Rect.coords (r : Rect) : List F64 := [r.x0, r.y0, r.x1, r.y1]

/-- All numeric fields of a rounded rectangle as a list. -/
def RoundedRect.coords (rr : RoundedRect) : List F64 :=
  rr.rect.coords ++ rr.radii.coords

/-- All coordinates of a path element as a list. -/
def PathEl.coords (el : PathEl) : List F64 :=
  el.points.foldr (fun p acc => p.coords ++ acc) []

/-- All coordinates of a path as a list. -/
def BezPath.coords (p : BezPath) : List F64 :=
  p.foldr (fun el acc => el.coords ++ acc) []

/-- All numeric fields of a clip geometry as a list. -/
def ClipGeometry.coords : ClipGeometry → List F64
  | .rect r => r.coords
  | .roundedRect rr => rr.coords
  | .path p => p.coords

/-- Every numeric field of a clip as a list: the transform coefficients,
the shape coordinates, and (for the stroke variant) the stroke fields.
The fill rule carries no numeric field. -/
def Clip.coords : Clip → List F64
  | .fill t sh _fill_rule => t.coeffs ++ sh.coords
  | .stroke t sh st => t.coeffs ++ sh.coords ++ st.coords

/-- Pointwise Boolean equality of two lists of equal length. -/
def listBeq (f : α → α → Bool) : List α → List α → Bool
  | [], [] => true
  | x :: xs, y :: ys => f x y && listBeq f xs ys
  | _, _ => false

/-- Modelled from the source `derive(PartialEq)`: rectangles compare
fieldwise with IEEE-754 `==` on the coordinates. -/
def Rect.beq (r s : Rect) : Bool :=
  r.x0.ieee_eq s.x0 && r.y0.ieee_eq s.y0 &&
  r.x1.ieee_eq s.x1 && r.y1.ieee_eq s.y1

/-- Modelled from the source `derive(PartialEq)`: radii compare fieldwise
with IEEE-754 `==`. -/
def RoundedRectRadii.beq (r s : RoundedRectRadii) : Bool :=
  r.top_left.ieee_eq s.top_left && r.top_right.ieee_eq s.top_right &&
  r.bottom_right.ieee_eq s.bottom_right && r.bottom_left.ieee_eq s.bottom_left

/-- Modelled from the source `derive(PartialEq)`: rounded rectangles
compare fieldwise. -/
def RoundedRect.beq (r s : RoundedRect) : Bool :=
  r.rect.beq s.rect && r.radii.beq s.radii

/-- Modelled from the source `derive(PartialEq)`: points compare fieldwise
with IEEE-754 `==`. -/
def Point.beq (p q : Point) : Bool :=
  p.x.ieee_eq q.x && p.y.ieee_eq q.y

/-- Modelled from the source `derive(PartialEq)`: path elements compare by
variant and then pointwise. -/
def PathEl.beq : PathEl → PathEl → Bool
  | .move_to p, .move_to q => p.beq q
  | .line_to p, .line_to q => p.beq q
  | .quad_to p1 p2, .quad_to q1 q2 => p1.beq q1 && p2.beq q2
  | .curve_to p1 p2 p3, .curve_to q1 q2 q3 => p1.beq q1 && p2.beq q2 && p3.beq q3
  | .close_path, .close_path => true
  | _, _ => false

/-- Modelled from the source `derive(PartialEq)`: paths compare elementwise
(equal length, equal elements). -/
def BezPath.beq (p q : BezPath) : Bool := listBeq PathEl.beq p q

/-- The `derive(PartialEq)` equality of `ClipGeometry` from
`src/imaging_model/src/clip.rs`: same variant, and payloads equal under the
collaborator `PartialEq` instances, whose float comparisons are IEEE-754
`==`. -/
def ClipGeometry.beq : ClipGeometry → ClipGeometry → Bool
  | .rect r, .rect s => r.beq s
  | .roundedRect r, .roundedRect s => r.beq s
  | .path p, .path q => p.beq q
  | _, _ => false

/-- The variant tag of a clip geometry. -/
def ClipGeometry.tag : ClipGeometry → Nat
  | .rect _ => 0
  | .roundedRect _ => 1
  | .path _ => 2

/-- The rectangle `Rect(0, 0, 2, 3)` used by the spec scenarios. -/
def rect023 : Rect := ⟨.num 0, .num 0, .num 2, .num 3⟩

/-- A stroke of width 2 and miter limit 4 (no dashes), the spec scenario
stroke. -/
def strokeC1 : Stroke :=
  ⟨.num 2, .round, .num 4, .round, .round, [], .num 0, true⟩

/-- A stroke of width 1 whose dash pattern contains a NaN entry. -/
def strokeNanDash : Stroke :=
  ⟨.num 1, .round, .num 4, .round, .round, [.num 1, .nan], .num 0, true⟩

/-- An affine transform with a NaN coefficient. -/
def nanAffine : Affine := ⟨.nan, .num 0, .num 0, .num 1, .num 0, .num 0⟩

/-- An affine transform with a positive-infinity coefficient and no NaN. -/
def pinfAffine : Affine := ⟨.pinf, .num 0, .num 0, .num 1, .num 0, .num 0⟩

/-- A rectangle whose `x0` field is NaN. -/
def nanRect : Rect := ⟨.nan, .num 0, .num 0, .num 0⟩

/-- A rectangle whose `x0` field is negative zero. -/
def negZeroRect : Rect := ⟨.negZero, .num 0, .num 0, .num 0⟩

/-- A rectangle whose `x0` field is positive zero. -/
def posZeroRect : Rect := ⟨.num 0, .num 0, .num 0, .num 0⟩

/-- `ratAdd` agrees with rational addition. -/
theorem ratAdd_eq (p q : ℚ) : ratAdd p q = p + q := by
  rw [ratAdd, Rat.mkRat_eq_divInt, Rat.add_num_den]
  congr 1
  ring

/-- `ratMul` agrees with rational multiplication. -/
theorem ratMul_eq (p q : ℚ) : ratMul p q = p * q := by
  rw [ratMul, Rat.mul_eq_mkRat]

/-- A double is NaN exactly when it is the NaN value. -/
theorem F64.is_nan_iff {x : F64} : x.is_nan = true ↔ x = .nan := by
  cases x <;> simp [F64.is_nan]

/-- A NaN double is not finite. -/
theorem F64.nan_not_finite {x : F64} (h : x.is_nan = true) :
    x.is_finite = false := by
  rw [F64.is_nan_iff] at h
  subst h
  rfl

/-- IEEE equality on a value and itself holds exactly when the value is not
NaN. -/
theorem F64.ieee_eq_self (x : F64) : x.ieee_eq x = !x.is_nan := by
  cases x <;> simp [F64.ieee_eq, F64.is_nan]

/-- NaN absorbs multiplication on the left. -/
theorem F64.nan_mul (y : F64) : F64.nan.mul y = .nan := by
  cases y <;> rfl

/-- NaN absorbs multiplication on the right. -/
theorem F64.mul_nan (x : F64) : x.mul .nan = .nan := by
  cases x <;> rfl

/-- NaN absorbs addition on the left. -/
theorem F64.nan_add (y : F64) : F64.nan.add y = .nan := by
  cases y <;> rfl

/-- NaN absorbs addition on the right. -/
theorem F64.add_nan (x : F64) : x.add .nan = .nan := by
  cases x <;> rfl

/-- The NaN-ignoring minimum of two NaNs is NaN. -/
theorem F64.min_nan_nan : F64.nan.min .nan = .nan := rfl

/-- A list with a member on which the predicate fails does not satisfy
`all`. -/
theorem all_false_of_mem {l : List α} {f : α → Bool} {x : α}
    (hmem : x ∈ l) (hx : f x = false) : l.all f = false := by
  cases hall : l.all f with
  | false => rfl
  | true => rw [List.all_eq_true.mp hall x hmem] at hx; cases hx

/-- If every member satisfies the negation of a predicate, `any` fails. -/
theorem any_false_of_all_not {l : List α} {f : α → Bool}
    (h : (l.all fun x => !f x) = true) : l.any f = false := by
  cases hany : l.any f with
  | false => rfl
  | true =>
    rcases List.any_eq_true.mp hany with ⟨x, hmem, hx⟩
    have := List.all_eq_true.mp h x hmem
    rw [hx] at this
    cases this

/-- A list of doubles containing a NaN is not all-finite. -/
theorem all_finite_false_of_any_nan {l : List F64}
    (h : l.any F64.is_nan = true) : l.all F64.is_finite = false := by
  rcases List.any_eq_true.mp h with ⟨x, hmem, hx⟩
  exact all_false_of_mem hmem (F64.nan_not_finite hx)

/-- Pointwise Boolean equality of a list with itself reduces to `all` of
the diagonal. -/
theorem listBeq_self (f : α → α → Bool) (l : List α) :
    listBeq f l l = l.all fun x => f x x := by
  induction l with
  | nil => rfl
  | cons x xs ih => simp [listBeq, ih]

/-- A rectangle is NaN exactly when some coordinate in its field list is. -/
theorem rect_is_nan_eq_any (r : Rect) :
    r.is_nan = r.coords.any F64.is_nan := by
  simp [Rect.is_nan, Rect.coords, Bool.or_assoc]

/-- A rectangle is finite exactly when every coordinate in its field list
is. -/
theorem rect_is_finite_eq_all (r : Rect) :
    r.is_finite = r.coords.all F64.is_finite := by
  simp [Rect.is_finite, Rect.coords, Bool.and_assoc]

/-- An affine transform is NaN exactly when some coefficient is. -/
theorem affine_is_nan_eq_any (t : Affine) :
    t.is_nan = t.coeffs.any F64.is_nan := by
  simp [Affine.is_nan, Affine.coeffs, Bool.or_assoc]

/-- An affine transform is finite exactly when every coefficient is. -/
theorem affine_is_finite_eq_all (t : Affine) :
    t.is_finite = t.coeffs.all F64.is_finite := by
  simp [Affine.is_finite, Affine.coeffs, Bool.and_assoc]

/-- Radii are NaN exactly when some entry of their field list is. -/
theorem radii_is_nan_eq_any (r : RoundedRectRadii) :
    r.is_nan = r.coords.any F64.is_nan := by
  simp [RoundedRectRadii.is_nan, RoundedRectRadii.coords, Bool.or_assoc]

/-- Radii are finite exactly when every entry of their field list is. -/
theorem radii_is_finite_eq_all (r : RoundedRectRadii) :
    r.is_finite = r.coords.all F64.is_finite := by
  simp [RoundedRectRadii.is_finite, RoundedRectRadii.coords, Bool.and_assoc]

/-- A rounded rectangle is NaN exactly when some entry of its field list
is. -/
theorem rounded_rect_is_nan_eq_any (rr : RoundedRect) :
    rr.is_nan = rr.coords.any F64.is_nan := by
  simp [RoundedRect.is_nan, RoundedRect.coords, rect_is_nan_eq_any,
    radii_is_nan_eq_any]

/-- A rounded rectangle is finite exactly when every entry of its field
list is. -/
theorem rounded_rect_is_finite_eq_all (rr : RoundedRect) :
    rr.is_finite = rr.coords.all F64.is_finite := by
  simp [RoundedRect.is_finite, RoundedRect.coords, rect_is_finite_eq_all,
    radii_is_finite_eq_all]

/-- A path element is NaN exactly when some entry of its coordinate list
is. -/
theorem path_el_is_nan_eq_any (el : PathEl) :
    el.is_nan = el.coords.any F64.is_nan := by
  cases el <;>
    simp [PathEl.is_nan, PathEl.coords, PathEl.points, Point.coords, Bool.or_assoc]

/-- A path element is finite exactly when every entry of its coordinate
list is. -/
theorem path_el_is_finite_eq_all (el : PathEl) :
    el.is_finite = el.coords.all F64.is_finite := by
  cases el <;>
    simp [PathEl.is_finite, PathEl.coords, PathEl.points, Point.coords, Bool.and_assoc]

/-- A path is NaN exactly when some entry of its coordinate list is. -/
theorem bez_path_is_nan_eq_any (p : BezPath) :
    p.is_nan = p.coords.any F64.is_nan := by
  induction p with
  | nil => rfl
  | cons el rest ih =>
    simp [BezPath.is_nan, BezPath.coords, path_el_is_nan_eq_any] at *
    simp [ih]

/-- A path is finite exactly when every entry of its coordinate list is. -/
theorem bez_path_is_finite_eq_all (p : BezPath) :
    p.is_finite = p.coords.all F64.is_finite := by
  induction p with
  | nil => rfl
  | cons el rest ih =>
    simp [BezPath.is_finite, BezPath.coords, path_el_is_finite_eq_all] at *
    simp [ih]

/-- A clip geometry is NaN exactly when some entry of its field list is. -/
theorem geometry_is_nan_eq_any (g : ClipGeometry) :
    g.is_nan = g.coords.any F64.is_nan := by
  cases g <;>
    simp [ClipGeometry.is_nan, ClipGeometry.coords, rect_is_nan_eq_any,
      rounded_rect_is_nan_eq_any, bez_path_is_nan_eq_any]

/-- A clip geometry is finite exactly when every entry of its field list
is. -/
theorem geometry_is_finite_eq_all (g : ClipGeometry) :
    g.is_finite = g.coords.all F64.is_finite := by
  cases g <;>
    simp [ClipGeometry.is_finite, ClipGeometry.coords, rect_is_finite_eq_all,
      rounded_rect_is_finite_eq_all, bez_path_is_finite_eq_all]

/-- A stroke is NaN exactly when some entry of its numeric field list
is. -/
theorem stroke_is_nan_eq_any (s : Stroke) :
    stroke_is_nan s = s.coords.any F64.is_nan := by
  simp [stroke_is_nan, Stroke.coords, Bool.or_assoc]

/-- A stroke is finite exactly when every entry of its numeric field list
is. -/
theorem stroke_is_finite_eq_all (s : Stroke) :
    stroke_is_finite s = s.coords.all F64.is_finite := by
  simp [stroke_is_finite, Stroke.coords, Bool.and_assoc]

/-- A clip is NaN exactly when some entry of its numeric field list is. -/
theorem clip_is_nan_eq_any (c : Clip) :
    c.is_nan = c.coords.any F64.is_nan := by
  cases c <;>
    simp [Clip.is_nan, Clip.coords, affine_is_nan_eq_any,
      geometry_is_nan_eq_any, stroke_is_nan_eq_any, Bool.or_assoc]

/-- A clip is finite exactly when every entry of its numeric field list
is. -/
theorem clip_is_finite_eq_all (c : Clip) :
    c.is_finite = c.coords.all F64.is_finite := by
  cases c <;>
    simp [Clip.is_finite, Clip.coords, affine_is_finite_eq_all,
      geometry_is_finite_eq_all, stroke_is_finite_eq_all, Bool.and_assoc]

/-- A NaN clip geometry is not finite. -/
theorem geometry_nan_not_finite {g : ClipGeometry} (h : g.is_nan = true) :
    g.is_finite = false := by
  rw [geometry_is_nan_eq_any] at h
  rw [geometry_is_finite_eq_all]
  exact all_finite_false_of_any_nan h

/-- A NaN clip is not finite. -/
theorem clip_nan_not_finite {c : Clip} (h : c.is_nan = true) :
    c.is_finite = false := by
  rw [clip_is_nan_eq_any] at h
  rw [clip_is_finite_eq_all]
  exact all_finite_false_of_any_nan h

/-- A NaN rectangle is not finite. -/
theorem rect_nan_not_finite {r : Rect} (h : r.is_nan = true) :
    r.is_finite = false := by
  rw [rect_is_nan_eq_any] at h
  rw [rect_is_finite_eq_all]
  exact all_finite_false_of_any_nan h

/-- If one of the three x-producing coefficients of a transform is NaN,
the x coordinate of every transformed point is NaN. -/
theorem apply_point_x_nan {t : Affine} (p : Point)
    (h : t.c0 = .nan ∨ t.c2 = .nan ∨ t.c4 = .nan) :
    (t.apply_point p).x = .nan := by
  rcases h with h | h | h <;> simp only [Affine.apply_point]
  · rw [h, F64.nan_mul, F64.nan_add, F64.nan_add]
  · rw [h, F64.nan_mul, F64.add_nan, F64.nan_add]
  · rw [h, F64.add_nan]

/-- If one of the three y-producing coefficients of a transform is NaN,
the y coordinate of every transformed point is NaN. -/
theorem apply_point_y_nan {t : Affine} (p : Point)
    (h : t.c1 = .nan ∨ t.c3 = .nan ∨ t.c5 = .nan) :
    (t.apply_point p).y = .nan := by
  rcases h with h | h | h <;> simp only [Affine.apply_point]
  · rw [h, F64.nan_mul, F64.nan_add, F64.nan_add]
  · rw [h, F64.nan_mul, F64.add_nan, F64.nan_add]
  · rw [h, F64.add_nan]

/-- A NaN x-producing coefficient makes the left edge of the transformed
bounding box NaN. -/
theorem transform_rect_bbox_x_nan {t : Affine} (r : Rect)
    (h : t.c0 = .nan ∨ t.c2 = .nan ∨ t.c4 = .nan) :
    (t.transform_rect_bbox r).is_nan = true := by
  simp only [Affine.transform_rect_bbox, Rect.from_points, Rect.union, Rect.is_nan]
  rw [apply_point_x_nan _ h, apply_point_x_nan _ h, apply_point_x_nan _ h,
    apply_point_x_nan _ h, F64.min_nan_nan, F64.min_nan_nan]
  simp [F64.is_nan]

/-- A NaN y-producing coefficient makes the bottom edge of the transformed
bounding box NaN. -/
theorem transform_rect_bbox_y_nan {t : Affine} (r : Rect)
    (h : t.c1 = .nan ∨ t.c3 = .nan ∨ t.c5 = .nan) :
    (t.transform_rect_bbox r).is_nan = true := by
  simp only [Affine.transform_rect_bbox, Rect.from_points, Rect.union, Rect.is_nan]
  rw [apply_point_y_nan _ h, apply_point_y_nan _ h, apply_point_y_nan _ h,
    apply_point_y_nan _ h, F64.min_nan_nan, F64.min_nan_nan]
  simp [F64.is_nan]

/-- Transforming a rectangle through a NaN transform yields a non-finite
rectangle: a NaN coefficient makes a whole coordinate column NaN for all
four corners, and the NaN-ignoring min/max of four NaNs is still NaN. -/
theorem transform_rect_bbox_nan {t : Affine} (r : Rect)
    (h : t.is_nan = true) : (t.transform_rect_bbox r).is_finite = false := by
  apply rect_nan_not_finite
  simp only [Affine.is_nan, Bool.or_eq_true, F64.is_nan_iff] at h
  rcases h with ((((h | h) | h) | h) | h) | h
  · exact transform_rect_bbox_x_nan r (Or.inl h)
  · exact transform_rect_bbox_y_nan r (Or.inl h)
  · exact transform_rect_bbox_x_nan r (Or.inr (Or.inl h))
  · exact transform_rect_bbox_y_nan r (Or.inr (Or.inl h))
  · exact transform_rect_bbox_x_nan r (Or.inr (Or.inr h))
  · exact transform_rect_bbox_y_nan r (Or.inr (Or.inr h))

/-- The finiteness filter only lets finite rectangles through. -/
theorem filter_finite_eq_some {o : Option Rect} {r : Rect}
    (h : (o.filter fun b => b.is_finite) = some r) : r.is_finite = true := by
  cases o with
  | none => cases h
  | some b =>
    simp only [Option.filter] at h
    rcases Option.ite_none_right_eq_some.mp h with ⟨hc, hb⟩
    rw [← Option.some.inj hb]
    exact hc

/-- IEEE self-equality of a rectangle is the absence of NaN among its
fields. -/
theorem rect_beq_self (r : Rect) :
    r.beq r = r.coords.all fun x => !x.is_nan := by
  simp [Rect.beq, Rect.coords, F64.ieee_eq_self, Bool.and_assoc]

/-- IEEE self-equality of radii is the absence of NaN among the radii. -/
theorem radii_beq_self (r : RoundedRectRadii) :
    r.beq r = r.coords.all fun x => !x.is_nan := by
  simp [RoundedRectRadii.beq, RoundedRectRadii.coords, F64.ieee_eq_self,
    Bool.and_assoc]

/-- IEEE self-equality of a rounded rectangle is the absence of NaN among
its fields. -/
theorem rounded_rect_beq_self (rr : RoundedRect) :
    rr.beq rr = rr.coords.all fun x => !x.is_nan := by
  simp [RoundedRect.beq, RoundedRect.coords, rect_beq_self,
    radii_beq_self]

/-- IEEE self-equality of a point is the absence of NaN among its
coordinates. -/
theorem point_beq_self (p : Point) :
    p.beq p = p.coords.all fun x => !x.is_nan := by
  simp [Point.beq, Point.coords, F64.ieee_eq_self]

/-- IEEE self-equality of a path element is the absence of NaN among its
coordinates. -/
theorem path_el_beq_self (el : PathEl) :
    el.beq el = el.coords.all fun x => !x.is_nan := by
  cases el <;>
    simp [PathEl.beq, PathEl.coords, PathEl.points, point_beq_self,
      Point.coords, Bool.and_assoc]

/-- IEEE self-equality of a path is the absence of NaN among its
coordinates. -/
theorem bez_path_beq_self (p : BezPath) :
    p.beq p = p.coords.all fun x => !x.is_nan := by
  rw [BezPath.beq, listBeq_self]
  induction p with
  | nil => rfl
  | cons el rest ih =>
    simp [BezPath.coords, path_el_beq_self] at *
    simp [ih]

/-- IEEE self-equality of a clip geometry is the absence of NaN among its
fields. -/
theorem geometry_beq_self (g : ClipGeometry) :
    g.beq g = g.coords.all fun x => !x.is_nan := by
  cases g <;>
    simp [ClipGeometry.beq, ClipGeometry.coords, rect_beq_self,
      rounded_rect_beq_self, bez_path_beq_self]

/-- Equal clip geometries (under the derived equality) have the same
variant. -/
theorem geometry_beq_tag {g h : ClipGeometry} (hbeq : g.beq h = true) :
    g.tag = h.tag := by
  cases g <;> cases h <;> first
    | rfl
    | simp [ClipGeometry.beq] at hbeq

/-- A non-finite stroke makes `stroke_bounds` return `none`. -/
theorem stroke_bounds_none_of_not_finite {s : Stroke} (b : Rect)
    (h : stroke_is_finite s = false) : stroke_bounds b s = none := by
  simp [stroke_bounds, h]

/-- C1: for the stroke clip with identity transform, shape `Rect(0,0,2,3)`,
stroke width 2 and miter limit 4, `bounds()` returns
`Some(Rect(-4,-4,6,7))`; and in general, for every stroke with finite
parameters, the shape-space bounds that reach the transform are the shape
bounds inflated on all four sides by
`outset = 0.5 * |width| * max(|miter_limit|, 1.0)`. -/
theorem clip_stroke_outset_bounds :
    Clip.bounds (.stroke Affine.identity (.rect rect023) strokeC1)
      = some ⟨.num (-4), .num (-4), .num 6, .num 7⟩ ∧
    ∀ (s : Stroke) (b e : Rect), stroke_is_finite s = true →
      stroke_bounds b s = some e →
      e = b.inflate (stroke_outset s) (stroke_outset s) := by
  refine ⟨by decide, ?_⟩
  intro s b e hfin h
  simp only [stroke_bounds, hfin, Bool.not_true, Bool.false_eq_true,
    if_false] at h
  rcases Option.ite_none_right_eq_some.mp h with ⟨_, hb⟩
  exact (Option.some.inj hb).symm

/-- Witness for C1 at the spec scenario: the stroke is finite and the
returned rectangle is the inflation of the shape bounds by the outset. -/
theorem clip_stroke_outset_bounds_witness :
    (⟨.num (-4), .num (-4), .num 6, .num 7⟩ : Rect)
      = rect023.inflate (stroke_outset strokeC1) (stroke_outset strokeC1) :=
  clip_stroke_outset_bounds.2 strokeC1 rect023 _ (by decide) (by decide)

/-- C2: the fill clip with transform `translate(5,-2)`, shape
`Rect(0,0,2,3)` and fill rule NonZero has bounds `Some(Rect(5,-2,7,1))`;
and in general, a fill clip's bounds are the transformed bounding box of
the shape's local bounds, when finite. -/
theorem clip_fill_transform_bounds :
    Clip.bounds
        (.fill (Affine.translate (.num 5) (.num (-2))) (.rect rect023) .nonZero)
      = some ⟨.num 5, .num (-2), .num 7, .num 1⟩ ∧
    ∀ (t : Affine) (sh : ClipGeometry) (fr : Fill) (b : Rect),
      sh.bounds = some b →
      Clip.bounds (.fill t sh fr)
        = if (t.transform_rect_bbox b).is_finite then
            some (t.transform_rect_bbox b)
          else none := by
  refine ⟨by decide, ?_⟩
  intro t sh fr b hb
  simp [Clip.bounds, hb, Option.filter]

/-- Witness for C2 at the spec scenario. -/
theorem clip_fill_transform_bounds_witness :
    Clip.bounds
        (.fill (Affine.translate (.num 5) (.num (-2))) (.rect rect023) .nonZero)
      = if ((Affine.translate (.num 5) (.num (-2))).transform_rect_bbox
            rect023).is_finite then
          some ((Affine.translate (.num 5) (.num (-2))).transform_rect_bbox
            rect023)
        else none :=
  clip_fill_transform_bounds.2 (Affine.translate (.num 5) (.num (-2)))
    (.rect rect023) .nonZero rect023 (by decide)

/-- C3: a fill clip whose transform contains a NaN coefficient has
`bounds() = none`, and a stroke clip whose dash pattern contains a NaN
entry has `bounds() = none` and `is_finite() = false`. -/
theorem clip_nonfinite_propagation :
    (∀ (t : Affine) (sh : ClipGeometry) (fr : Fill),
      t.coeffs.any F64.is_nan = true → Clip.bounds (.fill t sh fr) = none) ∧
    (∀ (t : Affine) (sh : ClipGeometry) (s : Stroke),
      s.dash_pattern.any F64.is_nan = true →
        Clip.bounds (.stroke t sh s) = none ∧
        Clip.is_finite (.stroke t sh s) = false) := by
  constructor
  · intro t sh fr h
    have hnan : t.is_nan = true := by rw [affine_is_nan_eq_any]; exact h
    cases hb : sh.bounds with
    | none => simp [Clip.bounds, hb]
    | some b =>
      simp [Clip.bounds, hb, Option.filter, transform_rect_bbox_nan b hnan]
  · intro t sh s h
    have hsf : stroke_is_finite s = false := by
      simp [stroke_is_finite, all_finite_false_of_any_nan h]
    refine ⟨?_, by simp [Clip.is_finite, hsf]⟩
    cases hb : sh.bounds with
    | none => simp [Clip.bounds, hb]
    | some b => simp [Clip.bounds, hb, stroke_bounds_none_of_not_finite b hsf]

/-- Witness for C3 at the spec scenarios: NaN transform entry on a fill
clip over `Rect(0,0,2,3)`, and a NaN dash entry on a stroke clip. -/
theorem clip_nonfinite_propagation_witness :
    Clip.bounds (.fill nanAffine (.rect rect023) .nonZero) = none ∧
    Clip.bounds (.stroke Affine.identity (.rect rect023) strokeNanDash)
      = none ∧
    Clip.is_finite (.stroke Affine.identity (.rect rect023) strokeNanDash)
      = false :=
  ⟨clip_nonfinite_propagation.1 nanAffine (.rect rect023) .nonZero (by decide),
   (clip_nonfinite_propagation.2 Affine.identity (.rect rect023) strokeNanDash
     (by decide)).1,
   (clip_nonfinite_propagation.2 Affine.identity (.rect rect023) strokeNanDash
     (by decide)).2⟩

/-- C4: for every finite transform and finite shape, a fill clip is finite,
whatever the fill rule; the fill rule contributes nothing to the check. -/
theorem clip_fill_finite_of_finite_parts :
    ∀ (t : Affine) (sh : ClipGeometry) (fr : Fill),
      t.is_finite = true → sh.is_finite = true →
      Clip.is_finite (.fill t sh fr) = true := by
  intro t sh fr ht hs
  simp [Clip.is_finite, ht, hs]

/-- Witness for C4 at a finite transform and shape, with the even-odd fill
rule. -/
theorem clip_fill_finite_of_finite_parts_witness :
    Clip.is_finite
        (.fill (Affine.translate (.num 5) (.num (-2))) (.rect rect023) .evenOdd)
      = true :=
  clip_fill_finite_of_finite_parts _ _ _ (by decide) (by decide)

/-- C5: `is_nan` and `is_finite` are independent, not complementary: a NaN
transform coefficient forces `is_nan = true` and `is_finite = false`, while
a positive-infinity transform coefficient with no NaN anywhere forces
`is_finite = false` with `is_nan = false`. -/
theorem clip_nan_finite_independent :
    (∀ c : Clip, (c.transform).coeffs.any F64.is_nan = true →
      c.is_nan = true ∧ c.is_finite = false) ∧
    (∀ c : Clip, F64.pinf ∈ (c.transform).coeffs →
      (c.coords.all fun x => !x.is_nan) = true →
      c.is_finite = false ∧ c.is_nan = false) := by
  constructor
  · intro c h
    have hnan : c.is_nan = true := by
      rw [clip_is_nan_eq_any]
      rcases List.any_eq_true.mp h with ⟨x, hmem, hx⟩
      apply List.any_eq_true.mpr
      refine ⟨x, ?_, hx⟩
      cases c with
      | fill t sh fr => exact List.mem_append_left _ hmem
      | stroke t sh st =>
        exact List.mem_append_left _ (List.mem_append_left _ hmem)
    exact ⟨hnan, clip_nan_not_finite hnan⟩
  · intro c hmem hall
    have ht : (c.transform).is_finite = false := by
      rw [affine_is_finite_eq_all]
      exact all_false_of_mem hmem rfl
    constructor
    · cases c with
      | fill t sh fr =>
        have hta : t.is_finite = false := ht
        simp [Clip.is_finite, hta]
      | stroke t sh st =>
        have hta : t.is_finite = false := ht
        simp [Clip.is_finite, hta]
    · rw [clip_is_nan_eq_any]
      exact any_false_of_all_not hall

/-- Witness for C5: a NaN coefficient on a fill clip, and a
positive-infinity coefficient with no NaN anywhere. -/
theorem clip_nan_finite_independent_witness :
    (Clip.is_nan (.fill nanAffine (.rect rect023) .nonZero) = true ∧
     Clip.is_finite (.fill nanAffine (.rect rect023) .nonZero) = false) ∧
    (Clip.is_finite (.fill pinfAffine (.rect rect023) .nonZero) = false ∧
     Clip.is_nan (.fill pinfAffine (.rect rect023) .nonZero) = false) :=
  ⟨clip_nan_finite_independent.1 _ (by decide),
   clip_nan_finite_independent.2 _ (by decide) (by decide)⟩

/-- C6 counterexample: the derived equality of `ClipGeometry` is IEEE-754
field equality, not bit-level equality.  A rectangle whose `x0` is NaN is
compared with the bitwise-identical value (the very same term) and found
unequal, and two rectangles differing only between `-0.0` and `+0.0` in
`x0` are found equal — the opposite of the claimed bit-level behaviour in
both directions. -/
theorem clip_geometry_bitwise_eq_counterexample :
    ClipGeometry.beq (.rect nanRect) (.rect nanRect) = false ∧
    ClipGeometry.beq (.rect negZeroRect) (.rect posZeroRect) = true := by
  decide

/-- C6 (amended): two `ClipGeometry` values are equal exactly when they
have the same variant and their corresponding numeric fields compare equal
under IEEE-754 `==`; hence equality holds on the diagonal exactly for
NaN-free values (a NaN field makes a value unequal to itself), and signed
zeros compare equal. -/
theorem clip_geometry_ieee_eq :
    (∀ g h : ClipGeometry, g.beq h = true → g.tag = h.tag) ∧
    (∀ g : ClipGeometry,
      (g.coords.all fun x => !x.is_nan) = true → g.beq g = true) ∧
    (∀ g : ClipGeometry, g.coords.any F64.is_nan = true → g.beq g = false) := by
  refine ⟨fun g h hbeq => geometry_beq_tag hbeq, ?_, ?_⟩
  · intro g hg
    rw [geometry_beq_self]
    exact hg
  · intro g hg
    rw [geometry_beq_self]
    rcases List.any_eq_true.mp hg with ⟨x, hmem, hx⟩
    exact all_false_of_mem hmem (by simp [hx])

/-- Witness for C6 (amended): a NaN-free geometry equals itself, and a
variant-respecting equality at a concrete pair. -/
theorem clip_geometry_ieee_eq_witness :
    ClipGeometry.beq (.rect rect023) (.rect rect023) = true ∧
    ClipGeometry.beq (.rect nanRect) (.rect nanRect) = false :=
  ⟨clip_geometry_ieee_eq.2.1 _ (by decide),
   clip_geometry_ieee_eq.2.2 _ (by decide)⟩

/-- C7: converting a `Path` geometry to a path returns the path unchanged,
for every tolerance; the tolerance has no effect on this variant. -/
theorem clip_geometry_to_path_id :
    ∀ (p : BezPath) (tol tol₂ : F64),
      ClipGeometry.to_path (.path p) tol = p ∧
      ClipGeometry.to_path (.path p) tol = ClipGeometry.to_path (.path p) tol₂ :=
  fun _ _ _ => ⟨rfl, rfl⟩

/-- C8: every query on a fill clip is independent of the fill rule:
`bounds`, `is_finite` and `is_nan` agree between the non-zero and even-odd
rules for every transform and shape. -/
theorem clip_fill_rule_independent :
    ∀ (t : Affine) (sh : ClipGeometry),
      Clip.bounds (.fill t sh .nonZero) = Clip.bounds (.fill t sh .evenOdd) ∧
      Clip.is_finite (.fill t sh .nonZero)
        = Clip.is_finite (.fill t sh .evenOdd) ∧
      Clip.is_nan (.fill t sh .nonZero) = Clip.is_nan (.fill t sh .evenOdd) :=
  fun _ _ => ⟨rfl, rfl, rfl⟩

/-- C9: for every clip and every clip geometry, `is_nan = true` implies
`is_finite = false`: a NaN anywhere in the checked fields always falsifies
the finiteness predicate, across all variants. -/
theorem clip_nan_implies_not_finite :
    (∀ c : Clip, c.is_nan = true → c.is_finite = false) ∧
    (∀ g : ClipGeometry, g.is_nan = true → g.is_finite = false) :=
  ⟨fun _ h => clip_nan_not_finite h, fun _ h => geometry_nan_not_finite h⟩

/-- Witness for C9 at a NaN fill clip and a NaN rectangle geometry. -/
theorem clip_nan_implies_not_finite_witness :
    Clip.is_finite (.fill nanAffine (.rect rect023) .nonZero) = false ∧
    ClipGeometry.is_finite (.rect nanRect) = false :=
  ⟨clip_nan_implies_not_finite.1 _ (by decide),
   clip_nan_implies_not_finite.2 _ (by decide)⟩

/-- C10: whenever `ClipGeometry::bounds` or `Clip::bounds` returns a
rectangle, that rectangle is finite: the finiteness filters never let a
non-finite rectangle through. -/
theorem clip_bounds_finite :
    (∀ (g : ClipGeometry) (r : Rect), g.bounds = some r → r.is_finite = true) ∧
    (∀ (c : Clip) (r : Rect), c.bounds = some r → r.is_finite = true) := by
  constructor
  · intro g r h
    simp only [ClipGeometry.bounds] at h
    rcases Option.ite_none_right_eq_some.mp h with ⟨hc, hb⟩
    rw [← Option.some.inj hb]
    exact hc
  · intro c r h
    cases c with
    | fill t sh fr => exact filter_finite_eq_some h
    | stroke t sh st => exact filter_finite_eq_some h

/-- Witness for C10 at the rectangle geometry and the translated fill
clip. -/
theorem clip_bounds_finite_witness :
    Rect.is_finite rect023 = true ∧
    Rect.is_finite ⟨.num 5, .num (-2), .num 7, .num 1⟩ = true :=
  ⟨clip_bounds_finite.1 (.rect rect023) rect023 (by decide),
   clip_bounds_finite.2
     (.fill (Affine.translate (.num 5) (.num (-2))) (.rect rect023) .nonZero)
     _ (by decide)⟩
